import Mathlib

/-!
Verification development for the Wavy HLS server (`src/server.cpp`).

The C++ source is shallowly embedded: pure string/byte computations become
Lean functions on `List Char` / `List Nat`, and the effectful handlers become
functions from an explicit model of their inputs (file-system state, extraction
results, error flags) to an explicit record of their observable outcome
(HTTP status, files created or removed, socket actions).
-/

namespace Wavy

/-! ## Generic list machinery: substring search, suffix test

`isPrefixChk pat l` mirrors the element-by-element comparison used by
`std::string::find`; `firstOccur pat l` is the index of the first occurrence of
`pat` in `l` (`std::string::find` returning `npos` becomes `none`).
-/

def isPrefixChk {α : Type} [DecidableEq α] : List α → List α → Bool
  | [], _ => true
  | _ :: _, [] => false
  | a :: pat, b :: l => decide (a = b) && isPrefixChk pat l

def firstOccur {α : Type} [DecidableEq α] (pat : List α) : List α → Option Nat
  | [] => if isPrefixChk pat [] then some 0 else none
  | b :: t =>
    if isPrefixChk pat (b :: t) then some 0
    else (firstOccur pat t).map (· + 1)

def containsSeq {α : Type} [DecidableEq α] (pat l : List α) : Bool :=
  (firstOccur pat l).isSome

/-- `l.ends_with suf` of C++: checked by comparing the reversed strings. -/
def endsWithList (l suf : List Char) : Bool :=
  isPrefixChk suf.reverse l.reverse

/-! ## Recognized extensions and literal markers (`macros.hpp`)

Modelled from the spec: `macros.hpp` is not part of the provided source;
the spec fixes the playlist extension `.m3u8`, transport-stream extension
`.ts`, fragmented-MP4 extension `.m4s`, container extension `.mp4`, the
block-compression suffix `zst`, and the playlist global header `#EXTM3U`.
-/

def PLAYLIST_EXT : List Char := ['.', 'm', '3', 'u', '8']

def TRANSPORT_STREAM_EXT : List Char := ['.', 't', 's']

def M4S_FILE_EXT : List Char := ['.', 'm', '4', 's']

def MP4_FILE_EXT : List Char := ['.', 'm', 'p', '4']

def ZSTD_FILE_EXT : List Char := ['z', 's', 't']

def PLAYLIST_GLOBAL_HEADER : List Nat :=
  (['#', 'E', 'X', 'T', 'M', '3', 'U']).map Char.toNat

def TRANSPORT_STREAM_START_BYTE : Nat := 0x47

def ftypBytes : List Nat := (['f', 't', 'y', 'p']).map Char.toNat

def moofBytes : List Nat := (['m', 'o', 'o', 'f']).map Char.toNat

def mdatBytes : List Nat := (['m', 'd', 'a', 't']).map Char.toNat

/-! ## Format validators (`server.cpp` lines 93–147) -/

/-- `validate_m3u8_format`: `content.find(PLAYLIST_GLOBAL_HEADER) != npos`. -/
def validate_m3u8_format (content : List Nat) : Bool :=
  containsSeq PLAYLIST_GLOBAL_HEADER content

/-- `validate_ts_file`: `!data.empty() && data[0] == 0x47`. -/
def validate_ts_file (data : List Nat) : Bool :=
  !data.isEmpty && data.headI == TRANSPORT_STREAM_START_BYTE

/-- `validate_m4s`: the argument is `none` when the `ifstream` fails to open,
`some data` otherwise with `data` the file's bytes.  The C++ reads the first 12
bytes (failing when `gcount() < 12`), requires bytes 4..7 to spell `ftyp` (the
big-endian box size in bytes 0..3 is read but unused), then searches the whole
contents for `moof` and `mdat`. -/
def validate_m4s : Option (List Nat) → Bool
  | none => false
  | some data =>
    if data.length < 12 then false
    else if !((data.drop 4).take 4 == ftypBytes) then false
    else containsSeq moofBytes data && containsSeq mdatBytes data

/-! ## Asset staging & promotion (`extract_and_validate`, lines 236–322)

A staged file is modelled by its name and its bytes.  `sweepAction` is the
classification loop body (lines 266–312): classify by extension; an invalid
playlist or transport stream is removed (`fs::remove` + `continue`), a `.m4s`
segment is kept whether or not `validate_m4s` passes (failure only logs a
warning), a `.mp4` container is kept, any other file is removed; every file not
removed is renamed into storage and counted in `valid_file_count`.
-/

structure StagedFile where
  name : List Char
  data : List Nat
deriving DecidableEq

inductive SweepAction
  | removed
  | promoted
deriving DecidableEq

def sweepAction (f : StagedFile) : SweepAction :=
  if endsWithList f.name PLAYLIST_EXT then
    if validate_m3u8_format f.data then .promoted else .removed
  else if endsWithList f.name TRANSPORT_STREAM_EXT then
    if validate_ts_file f.data then .promoted else .removed
  else if endsWithList f.name M4S_FILE_EXT then
    -- `validate_m4s` is called here in the source, but a failure only logs
    -- "Possibly invalid M4S segment" and the file is kept either way.
    .promoted
  else if endsWithList f.name MP4_FILE_EXT then .promoted
  else .removed

/-- Result of `extract_payload` (lines 149–234): opening the archive can fail,
otherwise the extractor writes a list of staged files.  `extract_payload`
returns `valid_files_found`, which is true iff at least one entry was
written. -/
inductive ExtractResult
  | openFail
  | extracted (files : List StagedFile)

/-- Observable outcome of `extract_and_validate`: its boolean return value,
whether `<storage-root>/<owner>/<asset-id>/` was created
(`fs::create_directories(storage_path)`, line 262), and the list of files
renamed into that directory. -/
structure EVOutcome where
  success : Bool
  storageDirCreated : Bool
  promoted : List StagedFile
deriving DecidableEq

/-- `extract_and_validate(gzip_path, audio_id, ip_id)`: fail if the staged
archive does not exist; fail (before creating the storage directory) if
`extract_payload` fails; otherwise create the storage directory, run the
validator sweep, rename survivors, and succeed iff `valid_file_count > 0`. -/
def extract_and_validate (gzipExists : Bool) (er : ExtractResult) : EVOutcome :=
  if !gzipExists then ⟨false, false, []⟩
  else
    match er with
    | .openFail => ⟨false, false, []⟩
    | .extracted files =>
      if files.isEmpty then
        -- `extract_payload` found no valid files: abort before the sweep.
        ⟨false, false, []⟩
      else
        let promoted := files.filter fun f => decide (sweepAction f = .promoted)
        ⟨!promoted.isEmpty, true, promoted⟩

/-! ## Archive upload handler (`handle_upload`, lines 520–568)

The handler writes the request body verbatim to
`<temp-root>/<asset-id>.tar.gz`; `openOk` models the `ofstream` opening
successfully (on failure no staged file is created), `writeOk` models
`output_file.good()` after the write.  `fs::remove(gzip_path)` runs only after
`extract_and_validate` — the early `return`s skip it.
-/

structure UploadOutcome where
  status : Nat
  stagedArchiveRemains : Bool
  ev : EVOutcome
deriving DecidableEq

def handle_upload (body : List Nat) (openOk writeOk : Bool)
    (er : ExtractResult) : UploadOutcome :=
  if !openOk then ⟨500, false, ⟨false, false, []⟩⟩
  else if !writeOk then ⟨500, true, ⟨false, false, []⟩⟩
  else if body.isEmpty then
    -- `!fs::exists(gzip_path) || fs::file_size(gzip_path) == 0`: the staged
    -- file was written and is empty; respond 400 and return without removing.
    ⟨400, true, ⟨false, false, []⟩⟩
  else
    let ev := extract_and_validate true er
    if ev.success then ⟨200, false, ev⟩ else ⟨400, false, ev⟩

/-! ## Segment-fetch routing (`handle_download`, lines 585–667)

The target is split with `std::getline(iss, token, '/')`, keeping non-empty
tokens.  The request is rejected with 400 iff `parts.size() < 4 ||
parts[0] != "hls"`; otherwise the file path is built from `parts[1]`,
`parts[2]`, `parts[3]` (extra components are silently ignored).
-/

def splitAtSlash : List Char → List Char → List (List Char)
  | [], acc => [acc.reverse]
  | c :: rest, acc =>
    if c = '/' then acc.reverse :: splitAtSlash rest []
    else splitAtSlash rest (c :: acc)

def pathParts (target : List Char) : List (List Char) :=
  (splitAtSlash target []).filter (fun t => !t.isEmpty)

inductive DownloadRoute
  | badRequest
  | fetch (owner asset file : List Char)
deriving DecidableEq

def handle_download_route (target : List Char) : DownloadRoute :=
  let parts := pathParts target
  if parts.length < 4 ∨ parts.headI ≠ ('h' :: 'l' :: 's' :: []) then .badRequest
  else .fetch (parts.getD 1 []) (parts.getD 2 []) (parts.getD 3 [])

/-- The path resolved by `handle_download` is
`<storage-root>/<owner>/<asset-id>/<file>`; it escapes the storage root when a
component is the parent-directory name `..`. -/
def routeEscapesRoot : DownloadRoute → Bool
  | .badRequest => false
  | .fetch owner asset file =>
    owner == ['.', '.'] || asset == ['.', '.'] || file == ['.', '.']

/-! ## Owner/asset listing (`handle_list_ips`, lines 412–462) -/

structure OwnerEntry where
  name : String
  isDir : Bool
  assets : List (String × Bool)
deriving DecidableEq

/-- State of `<storage-root>` when `handle_list_ips` runs: `fs::exists` false,
or exists but `fs::is_directory` false, or a directory with its entries (each
entry carries the audio-level entries when it is itself a directory). -/
inductive StorageRoot
  | missing
  | notDirectory
  | directory (entries : List OwnerEntry)

structure HttpResponse where
  status : Nat
  contentType : Option String
  body : String
deriving DecidableEq

/-- Inner loop of `handle_list_ips` for one owner directory: emit the
`<ip_id>:\n` header, then `  - <audio_id>\n` for each directory entry, or
`  (No audio IDs found)\n` when none is a directory. -/
def renderOwner (e : OwnerEntry) : String :=
  let inner := e.assets.foldl
    (fun (acc : String × Bool) (a : String × Bool) =>
      if a.2 then (acc.1 ++ "  - " ++ a.1 ++ "\n", true) else acc)
    (e.name ++ ":\n", false)
  if inner.2 then inner.1 else inner.1 ++ "  (No audio IDs found)\n"

/-- The body built by the owner loop, as a recursion over entries. -/
def renderOwners : List OwnerEntry → String
  | [] => ""
  | e :: t => (if e.isDir then renderOwner e else "") ++ renderOwners t

/-- `handle_list_ips`: `!fs::exists || !fs::is_directory` ⇒ the 500 response;
otherwise walk the entries, appending `renderOwner` for each directory entry
and setting `entries_found`; no directory entry ⇒ 404; otherwise 200 with a
`text/plain` body. -/
def handle_list_ips (root : StorageRoot) : HttpResponse :=
  match root with
  | .missing => ⟨500, none, ""⟩
  | .notDirectory => ⟨500, none, ""⟩
  | .directory entries =>
    let r := entries.foldl
      (fun (acc : String × Bool) (e : OwnerEntry) =>
        if e.isDir then (acc.1 ++ renderOwner e, true) else acc)
      ("", false)
    if r.2 then ⟨200, some "text/plain", r.1⟩ else ⟨404, none, ""⟩

/-! ## Session write/shutdown behaviour (`send_response` lines 669–710,
`handle_download` write continuation lines 654–663) -/

inductive SocketAction
  | tlsShutdown
  | closeSocket
deriving DecidableEq

/-- Actions performed by the `send_response` write continuation: every branch
(write error, incomplete write, success) calls `do_shutdown`, which runs
`async_shutdown` and then closes the underlying socket. -/
def send_response_actions (writeError incompleteWrite : Bool) : List SocketAction :=
  if writeError then [.tlsShutdown, .closeSocket]
  else if incompleteWrite then [.tlsShutdown, .closeSocket]
  else [.tlsShutdown, .closeSocket]

/-- Actions performed by the write continuation of the segment-fetch success
response (`http::async_write` at line 655): log on error, then close the
underlying socket directly — no `async_shutdown`. -/
def download_write_actions (writeError : Bool) : List SocketAction :=
  match writeError with
  | true => [.closeSocket]
  | false => [.closeSocket]

/-! ## Request read step (`do_read`, lines 377–410) -/

inductive ReadError
  | bodyLimit
  | other
deriving DecidableEq

/-- Modelled from the library contract (spec §5: "the request parser is
configured with a hard body ceiling before any byte is read; exceeding it
yields a distinct error recognized and mapped to 413"): the parser configured
with `body_limit(limitMiB * 1024 * 1024)` fails with `http::error::body_limit`
whenever the body is strictly larger than the ceiling. -/
def parser_read (bodyLen limitMiB : Nat) (transportError : Option ReadError) :
    Option ReadError :=
  if bodyLen > limitMiB * 1024 * 1024 then some .bodyLimit else transportError

structure ReadOutcome where
  response : Option Nat
  handlerRan : Bool
  writeThenShutdown : Bool
  tempFileCreated : Bool
deriving DecidableEq

/-- `do_read`: on `http::error::body_limit` send the 413 response (which goes
through `send_response`, i.e. write then TLS shutdown then close) without ever
calling `process_request`; on any other read error just log and return; on
success hand the request to `process_request` (which may create a temp
file). -/
def do_read (bodyLen limitMiB : Nat) (transportError : Option ReadError) :
    ReadOutcome :=
  match parser_read bodyLen limitMiB transportError with
  | some .bodyLimit => ⟨some 413, false, true, false⟩
  | some .other => ⟨none, false, false, false⟩
  | none => ⟨none, true, true, true⟩

/-! ## Metadata upload trimming (`process_request`, lines 464–501)

`NETWORK_TEXT_DELIM` lives in `macros.hpp` and is kept abstract (any marker
string).  The bottom delimiter is the literal run of 26 dashes from line
482. -/

def trimTop (delim body : List Char) : List Char :=
  match firstOccur delim body with
  | none => body
  | some i => body.drop (i + delim.length)

def bottom_delimiter : List Char := List.replicate 26 '-'

def trimBottom (body : List Char) : List Char :=
  match firstOccur bottom_delimiter body with
  | none => body
  | some i => body.take i

/-- Result of the external `parseAudioMetadataFromDataString` collaborator:
only its `path` field is inspected by the handler. -/
structure TomlData where
  path : List Char

/-- The `/toml/upload` branch of `process_request`: strip the top boundary (if
present), strip the bottom dash run (if present), parse, and answer 400 iff
the parsed `path` is empty, else 200. -/
def process_toml_upload (parse : List Char → TomlData) (delim body : List Char) :
    Nat :=
  let b := trimBottom (trimTop delim body)
  if (parse b).path.isEmpty then 400 else 200

/-! ## Per-entry nested decompression (`extract_payload` loop, lines 171–228)

`output_file.substr(output_file.find_last_of(".") + 1)` is the text after the
last dot (the whole string when there is no dot, since `npos + 1 == 0`);
`output_file.substr(0, output_file.find_last_of("."))` strips the last
extension. -/

def afterLastDot (cs : List Char) : List Char :=
  if '.' ∈ cs then (cs.reverse.takeWhile (fun c => !(c = '.'))).reverse else cs

def beforeLastDot (cs : List Char) : List Char :=
  if '.' ∈ cs then ((cs.reverse.dropWhile (fun c => !(c = '.'))).drop 1).reverse
  else cs

/-- One archive entry as the extractor sees it: its output path, whether
`archive_write_header` succeeded, whether the output `ofstream` opened, and
the result of `ZSTD_decompress_file` (relevant only for `.zst` entries). -/
structure ArchiveEntry where
  name : List Char
  headerOk : Bool
  writeOpenOk : Bool
  decompressOk : Bool
deriving DecidableEq

/-- Modelled from the spec (§4.2; `include/decompression.h` is not part of the
provided source): `ZSTD_decompress_file` decompresses in place, "producing a
sibling file with the suffix stripped". -/
def zstdDecompressOutput (path : List Char) : List Char :=
  beforeLastDot path

/-- Body of the `extract_payload` entry loop, acting on the set of files
present in the extraction directory: skip the entry if the header write or the
`ofstream` open fails; otherwise the entry's file is written; if its text
after the last dot equals `ZSTD_FILE_EXT`, decompress — on failure keep the
`.zst` file and continue, on success the decompressed sibling appears and
`std::remove` deletes the `.zst` file. -/
def processEntry (files : List (List Char)) (e : ArchiveEntry) : List (List Char) :=
  if !e.headerOk then files
  else if !e.writeOpenOk then files
  else
    let files1 := files ++ [e.name]
    if afterLastDot e.name = ZSTD_FILE_EXT then
      if !e.decompressOk then files1
      else (files1 ++ [zstdDecompressOutput e.name]).filter (fun f => !(f = e.name))
    else files1

/-- The whole entry loop of `extract_payload`: every entry is processed in
order; no failure of one entry stops the loop. -/
def extract_payload_files (entries : List ArchiveEntry) : List (List Char) :=
  entries.foldl processEntry []

/-! ## Helper lemmas: correctness of the search and suffix primitives -/

theorem isPrefixChk_iff {α : Type} [DecidableEq α] (pat l : List α) :
    isPrefixChk pat l = true ↔ ∃ t, l = pat ++ t := by
  induction pat generalizing l with
  | nil => simp [isPrefixChk]
  | cons a pat ih =>
    cases l with
    | nil => simp [isPrefixChk]
    | cons b t =>
      simp only [isPrefixChk, Bool.and_eq_true, decide_eq_true_eq, ih,
        List.cons_append, List.cons.injEq]
      constructor
      · rintro ⟨rfl, u, rfl⟩
        exact ⟨u, rfl, rfl⟩
      · rintro ⟨u, rfl, rfl⟩
        exact ⟨rfl, u, rfl⟩

theorem isPrefixChk_self_append {α : Type} [DecidableEq α] (pat t : List α) :
    isPrefixChk pat (pat ++ t) = true :=
  (isPrefixChk_iff pat (pat ++ t)).2 ⟨t, rfl⟩

theorem containsSeq_iff {α : Type} [DecidableEq α] (pat l : List α) :
    containsSeq pat l = true ↔ ∃ pre suf, l = pre ++ pat ++ suf := by
  induction l with
  | nil =>
    constructor
    · intro h
      by_cases hp : isPrefixChk pat ([] : List α) = true
      · rcases (isPrefixChk_iff pat []).1 hp with ⟨t, ht⟩
        exact ⟨[], t, by simpa using ht⟩
      · simp only [containsSeq, firstOccur, if_neg hp] at h
        simp at h
    · rintro ⟨pre, suf, h⟩
      have h' := h.symm
      rw [List.append_eq_nil, List.append_eq_nil] at h'
      obtain ⟨⟨rfl, rfl⟩, rfl⟩ := h'
      simp [containsSeq, firstOccur, isPrefixChk]
  | cons b t ih =>
    constructor
    · intro h
      by_cases hp : isPrefixChk pat (b :: t) = true
      · rcases (isPrefixChk_iff pat (b :: t)).1 hp with ⟨u, hu⟩
        exact ⟨[], u, by simpa using hu⟩
      · have ht : containsSeq pat t = true := by
          simp only [containsSeq, firstOccur, if_neg hp] at h
          cases hft : firstOccur pat t with
          | none => rw [hft] at h; simp at h
          | some n => simp [containsSeq, hft]
        rcases ih.1 ht with ⟨pre, suf, hps⟩
        exact ⟨b :: pre, suf, by simp [hps]⟩
    · rintro ⟨pre, suf, h⟩
      cases pre with
      | nil =>
        have hp : isPrefixChk pat (b :: t) = true :=
          (isPrefixChk_iff pat (b :: t)).2 ⟨suf, by simpa using h⟩
        simp [containsSeq, firstOccur, hp]
      | cons c pre =>
        have hbc : b = c ∧ t = pre ++ pat ++ suf := by simpa using h
        have ht : containsSeq pat t = true := ih.2 ⟨pre, suf, hbc.2⟩
        by_cases hp : isPrefixChk pat (b :: t) = true
        · simp [containsSeq, firstOccur, hp]
        · simp only [containsSeq, firstOccur, if_neg hp]
          simp only [containsSeq] at ht
          cases hft : firstOccur pat t with
          | none => rw [hft] at ht; simp at ht
          | some n => simp [hft]

theorem endsWithList_iff (l suf : List Char) :
    endsWithList l suf = true ↔ ∃ pre, l = pre ++ suf := by
  unfold endsWithList
  rw [isPrefixChk_iff]
  constructor
  · rintro ⟨t, ht⟩
    refine ⟨t.reverse, ?_⟩
    have := congrArg List.reverse ht
    simpa using this
  · rintro ⟨pre, rfl⟩
    exact ⟨pre.reverse, by simp⟩

theorem endsWithList_append (pre suf : List Char) :
    endsWithList (pre ++ suf) suf = true :=
  (endsWithList_iff _ _).2 ⟨pre, rfl⟩

example : validate_ts_file [0x47, 0x40, 0x00] = true := by decide

example : validate_ts_file [0x00] = false := by decide

example : validate_m3u8_format PLAYLIST_GLOBAL_HEADER = true := by decide

/-! ## Helper lemmas: extension disambiguation -/

theorem ts_not_playlist (ys : List Char) :
    endsWithList (ys ++ TRANSPORT_STREAM_EXT) PLAYLIST_EXT = false := by
  unfold endsWithList
  rw [List.reverse_append]
  rfl

theorem m4s_not_playlist (ys : List Char) :
    endsWithList (ys ++ M4S_FILE_EXT) PLAYLIST_EXT = false := by
  unfold endsWithList
  rw [List.reverse_append]
  rfl

theorem m4s_not_ts (ys : List Char) :
    endsWithList (ys ++ M4S_FILE_EXT) TRANSPORT_STREAM_EXT = false := by
  unfold endsWithList
  rw [List.reverse_append]
  rfl

/-! ## Helper lemmas: the dot-splitting primitives on `.zst` names -/

theorem afterLastDot_zst (ys : List Char) :
    afterLastDot (ys ++ ('.' :: ZSTD_FILE_EXT)) = ZSTD_FILE_EXT := by
  unfold afterLastDot
  rw [if_pos (List.mem_append_right _ (by simp)), List.reverse_append]
  rfl

theorem beforeLastDot_zst (ys : List Char) :
    beforeLastDot (ys ++ ('.' :: ZSTD_FILE_EXT)) = ys := by
  unfold beforeLastDot
  rw [if_pos (List.mem_append_right _ (by simp)), List.reverse_append]
  exact List.reverse_reverse ys

/-! ## Helper lemmas: membership in the promoted set -/

theorem not_promoted_of_removed (files : List StagedFile) (f : StagedFile)
    (h : sweepAction f = .removed) :
    f ∉ (extract_and_validate true (.extracted files)).promoted := by
  intro hmem
  by_cases he : files.isEmpty
  · simp [extract_and_validate, he] at hmem
  · simp only [extract_and_validate, Bool.not_true, Bool.false_eq_true, if_false, he,
      Bool.false_eq_true] at hmem
    rcases List.mem_filter.1 hmem with ⟨-, hpr⟩
    rw [h] at hpr
    simp at hpr

theorem mem_promoted_of_promoted (files : List StagedFile) (f : StagedFile)
    (hf : f ∈ files) (h : sweepAction f = .promoted) :
    f ∈ (extract_and_validate true (.extracted files)).promoted := by
  have he : files.isEmpty = false := by
    cases files with
    | nil => simp at hf
    | cons a t => rfl
  simp only [extract_and_validate, Bool.not_true, Bool.false_eq_true, if_false, he]
  exact List.mem_filter.2 ⟨hf, by simp [h]⟩

/-! ## Helper lemma: the listing fold of `handle_list_ips` -/

theorem listIps_foldl (entries : List OwnerEntry) (s : String) (b : Bool) :
    entries.foldl
      (fun (acc : String × Bool) (e : OwnerEntry) =>
        if e.isDir then (acc.1 ++ renderOwner e, true) else acc)
      (s, b) =
    (s ++ renderOwners entries, b || entries.any (fun e => e.isDir)) := by
  induction entries generalizing s b with
  | nil => simp [renderOwners]
  | cons e t ih =>
    by_cases hd : e.isDir
    · simp [renderOwners, hd, ih, String.append_assoc]
    · simp [renderOwners, hd, ih]

theorem string_empty_append (s : String) : "" ++ s = s := rfl

/-! ## The claims -/

/-- C1: the claim states that the segment-fetch router accepts a path only
when splitting on `/` yields exactly four non-empty components, the first
equal to `hls` and none equal to `..`, answering 400 to every other shape and
never resolving a file outside the storage root.  The code only checks
`parts.size() < 4 || parts[0] != "hls"`: it accepts `/hls/../etc/passwd`
(resolving `<storage-root>/../etc/passwd`, outside the storage root) and it
accepts the five-component path `/hls/a/b/c/d`. -/
theorem c1_router_accepts_traversal :
    handle_download_route ("/hls/../etc/passwd".data) =
      DownloadRoute.fetch ("..".data) ("etc".data) ("passwd".data) ∧
    routeEscapesRoot (handle_download_route ("/hls/../etc/passwd".data)) = true ∧
    handle_download_route ("/hls/a/b/c/d".data) =
      DownloadRoute.fetch ("a".data) ("b".data) ("c".data) := by
  refine ⟨?_, ?_, ?_⟩ <;> rfl

/-- C5 counterexample: the claim states that every response path attempts a
TLS shutdown before closing the socket, but the write continuation of the
segment-fetch success response closes the underlying socket with no
TLS-shutdown attempt. -/
theorem c5_counterexample :
    download_write_actions false = [SocketAction.closeSocket] ∧
    SocketAction.tlsShutdown ∉ download_write_actions false := by
  exact ⟨rfl, by decide⟩

/-- C5 amended: every response sent through `send_response` (error responses
and upload responses alike, whether the write failed, was incomplete or
succeeded) attempts the TLS shutdown and then closes the underlying socket;
the segment-fetch success response, written directly by `handle_download`,
closes the socket without attempting a TLS shutdown. -/
theorem c5_send_response_shutdown :
    (∀ writeError incompleteWrite : Bool,
      send_response_actions writeError incompleteWrite =
        [SocketAction.tlsShutdown, SocketAction.closeSocket]) ∧
    (∀ writeError : Bool,
      download_write_actions writeError = [SocketAction.closeSocket] ∧
      SocketAction.tlsShutdown ∉ download_write_actions writeError) := by
  constructor
  · intro we iw
    cases we <;> cases iw <;> rfl
  · intro we
    cases we <;> exact ⟨rfl, by decide⟩

/-- C9: any upload body strictly larger than the configured ceiling makes the
read step fail with the body-limit error before the handler runs: the session
responds 413, proceeds directly to write-then-shutdown, and no temporary file
is created by that request. -/
theorem c9_body_limit (bodyLen limitMiB : Nat) (transportError : Option ReadError)
    (h : limitMiB * 1024 * 1024 < bodyLen) :
    do_read bodyLen limitMiB transportError = ⟨some 413, false, true, false⟩ := by
  unfold do_read parser_read
  rw [if_pos h]

theorem c9_witness :
    0 * 1024 * 1024 < 2 ∧ do_read 2 0 none = ⟨some 413, false, true, false⟩ :=
  ⟨by decide, c9_body_limit 2 0 none (by decide)⟩

/-- C10: when the POST `/toml/upload` body does not contain the configured top
boundary marker, nothing is stripped from its start; when it does not contain
the 26-dash bottom delimiter, nothing is trimmed from its end; and the
response is 400 exactly when the parse result is empty — the only other
possible answer is 200, so the absence of either boundary never by itself
causes a 400. -/
theorem c10_toml_boundaries (parse : List Char → TomlData) (delim body : List Char) :
    (containsSeq delim body = false → trimTop delim body = body) ∧
    (containsSeq bottom_delimiter body = false → trimBottom body = body) ∧
    (process_toml_upload parse delim body = 400 ↔
      (parse (trimBottom (trimTop delim body))).path = []) ∧
    (process_toml_upload parse delim body = 400 ∨
      process_toml_upload parse delim body = 200) := by
  refine ⟨?_, ?_, ?_, ?_⟩
  · intro h
    have hn : firstOccur delim body = none := by
      cases hf : firstOccur delim body with
      | none => rfl
      | some i => simp [containsSeq, hf] at h
    simp [trimTop, hn]
  · intro h
    have hn : firstOccur bottom_delimiter body = none := by
      cases hf : firstOccur bottom_delimiter body with
      | none => rfl
      | some i => simp [containsSeq, hf] at h
    simp [trimBottom, hn]
  · constructor
    · intro h400
      by_cases hp : (parse (trimBottom (trimTop delim body))).path.isEmpty = true
      · exact List.isEmpty_iff.1 hp
      · exfalso
        simp [process_toml_upload, hp] at h400
    · intro hnil
      have hp : (parse (trimBottom (trimTop delim body))).path.isEmpty = true := by
        simp [hnil]
      simp [process_toml_upload, hp]
  · by_cases hp : (parse (trimBottom (trimTop delim body))).path.isEmpty = true
    · exact Or.inl (by simp [process_toml_upload, hp])
    · exact Or.inr (by simp [process_toml_upload, hp])

theorem c10_witness :
    trimTop ('X' :: []) ('h' :: 'i' :: []) = ('h' :: 'i' :: []) ∧
    trimBottom ('h' :: 'i' :: []) = ('h' :: 'i' :: []) :=
  ⟨(c10_toml_boundaries (fun b => ⟨b⟩) ('X' :: []) ('h' :: 'i' :: [])).1 (by decide),
   (c10_toml_boundaries (fun b => ⟨b⟩) ('X' :: []) ('h' :: 'i' :: [])).2.1 (by decide)⟩

theorem validate_m4s_some (data : List Nat) :
    validate_m4s (some data) = true ↔
      12 ≤ data.length ∧ (data.drop 4).take 4 = ftypBytes ∧
      containsSeq moofBytes data = true ∧ containsSeq mdatBytes data = true := by
  simp only [validate_m4s]
  by_cases h12 : data.length < 12
  · rw [if_pos h12]
    simp only [Bool.false_eq_true, false_iff]
    rintro ⟨h', -⟩
    omega
  · have hle : 12 ≤ data.length := Nat.not_lt.mp h12
    rw [if_neg h12]
    by_cases hft : (data.drop 4).take 4 = ftypBytes
    · have hb : ((data.drop 4).take 4 == ftypBytes) = true := beq_iff_eq.2 hft
      rw [hb]
      simp [hle, hft, Bool.and_eq_true]
    · have hb : ((data.drop 4).take 4 == ftypBytes) = false := by
        simp [hft]
      rw [hb]
      simp [hft]

/-- C8: the transport-stream validator succeeds exactly when the byte sequence
is non-empty and its first byte is the sync byte 0x47; and in the staging
sweep a `.ts` file failing this check is removed and is never promoted into
the owner/asset storage tree. -/
theorem c8_ts_validator_and_sweep :
    (∀ data : List Nat,
      validate_ts_file data = true ↔
        data ≠ [] ∧ data.head? = some TRANSPORT_STREAM_START_BYTE) ∧
    (∀ (ys : List Char) (data : List Nat) (files : List StagedFile),
      validate_ts_file data = false →
        sweepAction ⟨ys ++ TRANSPORT_STREAM_EXT, data⟩ = .removed ∧
        StagedFile.mk (ys ++ TRANSPORT_STREAM_EXT) data ∉
          (extract_and_validate true (.extracted files)).promoted) := by
  constructor
  · intro data
    cases data with
    | nil => simp [validate_ts_file]
    | cons b t => simp [validate_ts_file, List.headI, TRANSPORT_STREAM_START_BYTE]
  · intro ys data files hval
    have hsw : sweepAction ⟨ys ++ TRANSPORT_STREAM_EXT, data⟩ = .removed := by
      simp [sweepAction, ts_not_playlist, endsWithList_append, hval]
    exact ⟨hsw, not_promoted_of_removed files _ hsw⟩

theorem c8_witness :
    sweepAction ⟨"seg".data ++ TRANSPORT_STREAM_EXT, [0]⟩ = .removed ∧
    StagedFile.mk ("seg".data ++ TRANSPORT_STREAM_EXT) [0] ∉
      (extract_and_validate true
        (.extracted [⟨"seg".data ++ TRANSPORT_STREAM_EXT, [0]⟩])).promoted :=
  c8_ts_validator_and_sweep.2 "seg".data [0]
    [⟨"seg".data ++ TRANSPORT_STREAM_EXT, [0]⟩] (by decide)

/-- C7: the fragmented-MP4 validator succeeds exactly when the file opens, has
at least 12 bytes, bytes 4..7 spell `ftyp`, and the full contents contain both
`moof` and `mdat` as sub-sequences; and in the staging sweep a `.m4s` file is
promoted into storage (and counted) whether or not the validator passes. -/
theorem c7_m4s_validator_and_sweep :
    (∀ c : Option (List Nat),
      validate_m4s c = true ↔
        ∃ data, c = some data ∧ 12 ≤ data.length ∧
          (data.drop 4).take 4 = ftypBytes ∧
          (∃ p s, data = p ++ moofBytes ++ s) ∧
          (∃ p s, data = p ++ mdatBytes ++ s)) ∧
    (∀ (ys : List Char) (data : List Nat) (files : List StagedFile),
      sweepAction ⟨ys ++ M4S_FILE_EXT, data⟩ = .promoted ∧
      (StagedFile.mk (ys ++ M4S_FILE_EXT) data ∈ files →
        StagedFile.mk (ys ++ M4S_FILE_EXT) data ∈
          (extract_and_validate true (.extracted files)).promoted)) := by
  constructor
  · intro c
    cases c with
    | none => simp [validate_m4s]
    | some data =>
      rw [validate_m4s_some]
      constructor
      · rintro ⟨h1, h2, h3, h4⟩
        exact ⟨data, rfl, h1, h2, (containsSeq_iff _ _).1 h3, (containsSeq_iff _ _).1 h4⟩
      · rintro ⟨d, hd, h1, h2, h3, h4⟩
        obtain rfl := Option.some.inj hd
        exact ⟨h1, h2, (containsSeq_iff _ _).2 h3, (containsSeq_iff _ _).2 h4⟩
  · intro ys data files
    have hsw : sweepAction ⟨ys ++ M4S_FILE_EXT, data⟩ = .promoted := by
      simp [sweepAction, m4s_not_playlist, m4s_not_ts, endsWithList_append]
    exact ⟨hsw, fun hf => mem_promoted_of_promoted files _ hf hsw⟩

theorem c7_witness :
    validate_m4s (some ([0, 0, 0, 12] ++ ftypBytes ++ moofBytes ++ mdatBytes)) = true ∧
    StagedFile.mk ("a".data ++ M4S_FILE_EXT) [] ∈
      (extract_and_validate true
        (.extracted [⟨"a".data ++ M4S_FILE_EXT, []⟩])).promoted := by
  constructor
  · exact (c7_m4s_validator_and_sweep.1 _).2
      ⟨[0, 0, 0, 12] ++ ftypBytes ++ moofBytes ++ mdatBytes, rfl, by decide, by decide,
       ⟨[0, 0, 0, 12] ++ ftypBytes, mdatBytes, by decide⟩,
       ⟨[0, 0, 0, 12] ++ ftypBytes ++ moofBytes, [], by decide⟩⟩
  · exact (c7_m4s_validator_and_sweep.2 "a".data [] [⟨"a".data ++ M4S_FILE_EXT, []⟩]).2
      (by decide)

/-- C2 counterexample: the claim states that after an upload in which zero
files pass the validator sweep the asset directory does not exist; but for an
archive extracting a single invalid transport-stream file the cycle fails
(the client gets 400) while `<storage-root>/<owner>/<asset-id>/` has already
been created — `fs::create_directories(storage_path)` runs before the sweep
and nothing removes the directory. -/
theorem c2_counterexample :
    (extract_and_validate true
        (.extracted [⟨"x".data ++ TRANSPORT_STREAM_EXT, [0]⟩])).success = false ∧
    (extract_and_validate true
        (.extracted [⟨"x".data ++ TRANSPORT_STREAM_EXT, [0]⟩])).storageDirCreated = true := by
  decide

/-- C2 amended: when zero extracted files pass the validator sweep the client
receives 400, but `<storage-root>/<owner>/<asset-id>/` has been created and is
left behind; in general the asset directory is created exactly when the staged
archive exists and extraction wrote at least one entry, regardless of the
validation outcome. -/
theorem c2_failed_sweep_leaves_dir :
    (∀ (body : List Nat) (files : List StagedFile),
      body ≠ [] → files ≠ [] →
      (∀ f ∈ files, sweepAction f = .removed) →
      (handle_upload body true true (.extracted files)).status = 400 ∧
      (handle_upload body true true (.extracted files)).ev.storageDirCreated = true) ∧
    (∀ (gzipExists : Bool) (er : ExtractResult),
      (extract_and_validate gzipExists er).storageDirCreated = true ↔
        (gzipExists = true ∧ ∃ files, er = .extracted files ∧ files ≠ [])) := by
  constructor
  · intro body files hbody hfiles hsweep
    have hbe : body.isEmpty = false := by
      cases body with
      | nil => exact absurd rfl hbody
      | cons a t => rfl
    have hfe : files.isEmpty = false := by
      cases files with
      | nil => exact absurd rfl hfiles
      | cons a t => rfl
    have hfilter : files.filter (fun f => decide (sweepAction f = .promoted)) = [] := by
      rw [List.filter_eq_nil_iff]
      intro f hf
      simp [hsweep f hf]
    have hev : extract_and_validate true (.extracted files) = ⟨false, true, []⟩ := by
      simp [extract_and_validate, hfe, hfilter]
    simp [handle_upload, hbe, hev]
  · intro gz er
    cases gz with
    | false => simp [extract_and_validate]
    | true =>
      cases er with
      | openFail => simp [extract_and_validate]
      | extracted files =>
        by_cases hfe : files.isEmpty = true
        · obtain rfl := List.isEmpty_iff.1 hfe
          simp [extract_and_validate]
        · rw [Bool.not_eq_true] at hfe
          simp only [extract_and_validate, Bool.not_true, Bool.false_eq_true, if_false, hfe]
          simp only [true_iff, true_and, iff_true]
          exact ⟨files, rfl, List.isEmpty_eq_false.1 hfe⟩

theorem c2_witness :
    (handle_upload [1] true true
        (.extracted [⟨"y".data ++ TRANSPORT_STREAM_EXT, [0]⟩])).status = 400 ∧
    (handle_upload [1] true true
        (.extracted [⟨"y".data ++ TRANSPORT_STREAM_EXT, [0]⟩])).ev.storageDirCreated = true :=
  c2_failed_sweep_leaves_dir.1 [1] [⟨"y".data ++ TRANSPORT_STREAM_EXT, [0]⟩]
    (by decide) (by decide) (by decide)

/-- C3 counterexample: the claim states that a missing storage root yields
404, but `handle_list_ips` answers the missing-storage case with the 500
response (`!fs::exists(storage_path) || !fs::is_directory(storage_path)`). -/
theorem c3_counterexample :
    (handle_list_ips .missing).status = 500 ∧
    (handle_list_ips .missing).status ≠ 404 := by
  decide

/-- C3 amended: a missing storage root, like a non-directory one, yields 500;
a storage root that is a directory with no directory entries yields 404; and
when at least one owner directory exists the response is 200 with a
`text/plain` body listing each owner followed by its asset-ids. -/
theorem c3_listing_statuses :
    handle_list_ips .missing = ⟨500, none, ""⟩ ∧
    handle_list_ips .notDirectory = ⟨500, none, ""⟩ ∧
    (∀ entries : List OwnerEntry,
      (∀ e ∈ entries, e.isDir = false) →
      handle_list_ips (.directory entries) = ⟨404, none, ""⟩) ∧
    (∀ entries : List OwnerEntry,
      (∃ e ∈ entries, e.isDir = true) →
      handle_list_ips (.directory entries) =
        ⟨200, some "text/plain", renderOwners entries⟩) := by
  refine ⟨rfl, rfl, ?_, ?_⟩
  · intro entries hall
    have hany : entries.any (fun e => e.isDir) = false := by
      rw [List.any_eq_false]
      intro e he
      simp [hall e he]
    simp [handle_list_ips, listIps_foldl, hany]
  · intro entries hex
    have hany : entries.any (fun e => e.isDir) = true := by
      rw [List.any_eq_true]
      obtain ⟨e, he, hd⟩ := hex
      exact ⟨e, he, by simp [hd]⟩
    simp [handle_list_ips, listIps_foldl, hany, string_empty_append]

theorem c3_witness :
    handle_list_ips (.directory [⟨"o", false, []⟩]) = ⟨404, none, ""⟩ ∧
    handle_list_ips (.directory [⟨"o", true, [("a", true)]⟩]) =
      ⟨200, some "text/plain", renderOwners [⟨"o", true, [("a", true)]⟩]⟩ :=
  ⟨c3_listing_statuses.2.2.1 [⟨"o", false, []⟩] (by decide),
   c3_listing_statuses.2.2.2 [⟨"o", true, [("a", true)]⟩] ⟨⟨"o", true, [("a", true)]⟩, by decide, rfl⟩⟩

/-- C4 counterexample: the claim states the staged archive file is removed on
every outcome including the early error paths, but an empty upload body takes
the early 400 return (`File is empty or missing`) before `fs::remove`, leaving
the empty staged archive behind. -/
theorem c4_counterexample :
    (handle_upload [] true true (.extracted [])).status = 400 ∧
    (handle_upload [] true true (.extracted [])).stagedArchiveRemains = true := by
  decide

/-- C4 amended: the staged archive file is removed whenever the handler
reaches `extract_and_validate` — on success and on validation failure alike —
but it survives the early error paths: an empty body yields 400 with the
empty staged file left behind, and a failed write yields 500 with the partial
staged file left behind. -/
theorem c4_staged_archive_removal :
    (∀ (body : List Nat) (er : ExtractResult),
      body ≠ [] →
      (handle_upload body true true er).stagedArchiveRemains = false) ∧
    (∀ er : ExtractResult,
      (handle_upload [] true true er).status = 400 ∧
      (handle_upload [] true true er).stagedArchiveRemains = true) ∧
    (∀ (body : List Nat) (er : ExtractResult),
      (handle_upload body true false er).status = 500 ∧
      (handle_upload body true false er).stagedArchiveRemains = true) := by
  refine ⟨?_, ?_, ?_⟩
  · intro body er hb
    have hbe : body.isEmpty = false := by
      cases body with
      | nil => exact absurd rfl hb
      | cons a t => rfl
    have hu : handle_upload body true true er =
        if (extract_and_validate true er).success then
          ⟨200, false, extract_and_validate true er⟩
        else ⟨400, false, extract_and_validate true er⟩ := by
      simp [handle_upload, hbe]
    rw [hu]
    by_cases hs : (extract_and_validate true er).success = true <;> simp [hs]
  · intro er
    exact ⟨rfl, rfl⟩
  · intro body er
    exact ⟨rfl, rfl⟩

theorem c4_witness :
    (handle_upload [7] true true .openFail).stagedArchiveRemains = false :=
  c4_staged_archive_removal.1 [7] .openFail (by decide)

/-- C6: for every written archive entry whose name carries the `.zst` suffix:
if decompression succeeds, the sibling with the suffix stripped is present
afterwards and the `.zst` file is deleted; if decompression fails, the `.zst`
file is kept; and the entry loop continues with the remaining entries either
way — illustrated by a two-entry run whose first entry fails to decompress and
whose second entry is still extracted. -/
theorem c6_zst_entries :
    (∀ (pre : List (List Char)) (ys : List Char) (e : ArchiveEntry),
      e.name = ys ++ ('.' :: ZSTD_FILE_EXT) → e.headerOk = true → e.writeOpenOk = true →
      (e.decompressOk = true →
        ys ∈ processEntry pre e ∧ e.name ∉ processEntry pre e) ∧
      (e.decompressOk = false → processEntry pre e = pre ++ [e.name])) ∧
    extract_payload_files
        [⟨"a".data ++ ('.' :: ZSTD_FILE_EXT), true, true, false⟩,
         ⟨"b".data ++ TRANSPORT_STREAM_EXT, true, true, true⟩] =
      ["a".data ++ ('.' :: ZSTD_FILE_EXT), "b".data ++ TRANSPORT_STREAM_EXT] := by
  constructor
  · intro pre ys e hname hh hw
    have hne : ys ≠ e.name := by
      rw [hname]
      intro h
      have hlen := congrArg List.length h
      simp at hlen
    have hzst : afterLastDot e.name = ZSTD_FILE_EXT := by
      rw [hname]
      exact afterLastDot_zst ys
    have hout : zstdDecompressOutput e.name = ys := by
      rw [zstdDecompressOutput, hname]
      exact beforeLastDot_zst ys
    constructor
    · intro hd
      have hform : processEntry pre e =
          ((pre ++ [e.name]) ++ [ys]).filter (fun f => !decide (f = e.name)) := by
        simp only [processEntry, hh, hw, hd, hzst, hout, Bool.not_true,
          Bool.false_eq_true, if_false, if_pos rfl, eq_self_iff_true, if_true]
      rw [hform]
      constructor
      · exact List.mem_filter.2 ⟨List.mem_append_right _ (by simp), by simp [hne]⟩
      · intro hmem
        rcases List.mem_filter.1 hmem with ⟨-, hpred⟩
        simp at hpred
    · intro hd
      simp only [processEntry, hh, hw, hd, hzst, Bool.not_true, Bool.not_false,
        Bool.false_eq_true, if_false, if_pos rfl, if_true]
  · decide

theorem c6_witness :
    "s".data ∈
      processEntry [] ⟨"s".data ++ ('.' :: ZSTD_FILE_EXT), true, true, true⟩ ∧
    ("s".data ++ ('.' :: ZSTD_FILE_EXT)) ∉
      processEntry [] ⟨"s".data ++ ('.' :: ZSTD_FILE_EXT), true, true, true⟩ :=
  (c6_zst_entries.1 [] "s".data ⟨"s".data ++ ('.' :: ZSTD_FILE_EXT), true, true, true⟩
    rfl rfl rfl).1 rfl

end Wavy
